import Mathlib

/-!
Shallow embedding of the 2048 game core of this repository
(src/components/Game2048.tsx, rendered through src/app/page.tsx).

A cell is an optional natural number, a board is a list of rows, and the
three powerup counters are integers (the source stores plain JS numbers and
decrements them without clamping).  Randomness (Math.random) is modelled by
passing the drawn values in [0,1) as explicit rational arguments; the cell
index is floor(r * number of empty cells) and the spawned value is 2 exactly
when the second draw is below 9/10, as in the source.
-/

abbrev Cell := Option Nat

abbrev Row := List Cell

abbrev Board := List Row

def GRID_SIZE : Nat := 4

def WINNING_NUMBER : Nat := 2048

def UNDO_UNLOCK_THRESHOLD : Nat := 128

def SWAP_UNLOCK_THRESHOLD : Nat := 256

def DELETE_UNLOCK_THRESHOLD : Nat := 512

def MAX_UNDO_COUNT : Int := 3

def MAX_SWAP_COUNT : Int := 2

def MAX_DELETE_COUNT : Int := 1

/-- Source `arraysEqual`: same length and element-wise strict equality, which
for lists is exactly boolean list equality. -/
def arraysEqual (arr1 arr2 : Row) : Bool := arr1 == arr2

/-- Reading `board[row][col]`; out-of-range reads yield `none` (JS
`undefined`, which the source only ever uses in falsy/equality checks). -/
def cellAt (board : Board) (row col : Nat) : Cell :=
  (board.getD row []).getD col none

/-- The data-model invariant: a 4x4 matrix. -/
def Board.valid (b : Board) : Prop :=
  b.length = GRID_SIZE ∧ ∀ r ∈ b, r.length = GRID_SIZE

instance boardValidDecidable (b : Board) : Decidable b.valid :=
  inferInstanceAs (Decidable (b.length = GRID_SIZE ∧ ∀ r ∈ b, r.length = GRID_SIZE))

/-- Source `initializeBoard`. -/
def initializeBoard : Board :=
  List.replicate GRID_SIZE (List.replicate GRID_SIZE none)

/-- The `while (i < filteredLine.length)` loop of source `moveLine`, with an
explicit fuel bound (the loop advances `i` by at least one per iteration, so
`filteredLine.length` iterations always suffice).  The JS condition
`i < filteredLine.length - 1` is `i + 1 < filteredLine.length` on naturals
(both are false when the length is 0). -/
def moveLineLoop (filteredLine : List Nat) (fuel i : Nat) (newLine : List Nat)
    (score : Nat) : List Nat × Nat :=
  match fuel with
  | 0 => (newLine, score)
  | fuel + 1 =>
    if i < filteredLine.length then
      if i + 1 < filteredLine.length ∧
          filteredLine.getD i 0 = filteredLine.getD (i + 1) 0 then
        moveLineLoop filteredLine fuel (i + 2)
          (newLine ++ [filteredLine.getD i 0 * 2])
          (score + filteredLine.getD i 0 * 2)
      else
        moveLineLoop filteredLine fuel (i + 1)
          (newLine ++ [filteredLine.getD i 0]) score
    else (newLine, score)

/-- Source `moveLine`: filter out nulls, run the merge loop, pad with nulls
up to `GRID_SIZE`. -/
def moveLine (line : Row) : Row × Nat :=
  let filteredLine := line.filterMap id
  let result := moveLineLoop filteredLine filteredLine.length 0 [] 0
  (result.1.map some ++ List.replicate (GRID_SIZE - result.1.length) none,
   result.2)

/-- Modelled from the spec (4.1 Line Resolver): scanning left-to-right over the
packed values, a value equal to the next not-yet-merged value combines into a
single cell of double the value and scanning resumes after the pair; no cell
merges twice.  Returns the merged sequence together with the list of newly
created merged values (whose sum is the score). -/
def mergeSpec : List Nat → List Nat × List Nat
  | [] => ([], [])
  | [a] => ([a], [])
  | a :: b :: rest =>
    if a = b then
      let r := mergeSpec rest
      (a * 2 :: r.1, a * 2 :: r.2)
    else
      let r := mergeSpec (b :: rest)
      (a :: r.1, r.2)

/-- Modelled from the spec (4.1): shift the non-empty values toward index 0
preserving order, merge per `mergeSpec`, fill trailing slots with empty, and
return the sum of the newly created merged values as the score. -/
def resolveSpec (line : Row) : Row × Nat :=
  let packed := line.filterMap id
  let merged := mergeSpec packed
  (merged.1.map some ++ List.replicate (GRID_SIZE - merged.1.length) none,
   merged.2.sum)

inductive Direction
  | up
  | down
  | left
  | right
deriving DecidableEq

/-- Source `moveBoard` reads one column as `board.map(row => row[col])`. -/
def getCol (board : Board) (col : Nat) : Row :=
  board.map fun row => row.getD col none

/-- Reassembling the per-column results: the source initializes a fresh empty
board and writes `newBoard[row][col]` for every row of every resolved
column. -/
def boardFromCols (cols : List Row) : Board :=
  (List.range GRID_SIZE).map fun row => cols.map fun c => c.getD row none

/-- Source `moveBoard`. -/
def moveBoard (board : Board) (direction : Direction) : Board × Nat × Bool :=
  match direction with
  | .left =>
    let rows := board.map fun row => (moveLine row, row)
    (rows.map fun pr => pr.1.1, (rows.map fun pr => pr.1.2).sum,
     rows.any fun pr => !arraysEqual pr.1.1 pr.2)
  | .right =>
    let rows := board.map fun row =>
      let reversedLine := row.reverse
      let resolved := moveLine reversedLine
      ((resolved.1.reverse, resolved.2), row)
    (rows.map fun pr => pr.1.1, (rows.map fun pr => pr.1.2).sum,
     rows.any fun pr => !arraysEqual pr.1.1 pr.2)
  | .up =>
    let cols := (List.range GRID_SIZE).map fun col =>
      let column := getCol board col
      (moveLine column, column)
    (boardFromCols (cols.map fun pr => pr.1.1), (cols.map fun pr => pr.1.2).sum,
     cols.any fun pr => !arraysEqual pr.1.1 pr.2)
  | .down =>
    let cols := (List.range GRID_SIZE).map fun col =>
      let column := (getCol board col).reverse
      let resolved := moveLine column
      ((resolved.1.reverse, resolved.2), getCol board col)
    (boardFromCols (cols.map fun pr => pr.1.1), (cols.map fun pr => pr.1.2).sum,
     cols.any fun pr => !arraysEqual pr.1.1 pr.2)

/-- The original sequence the source compares against for each of the four
lines of a direction (for right and down the comparison happens after
reversing back, i.e. against the unreversed original line). -/
def lineOrig (b : Board) (d : Direction) (i : Nat) : Row :=
  match d with
  | .left => b.getD i []
  | .right => b.getD i []
  | .up => getCol b i
  | .down => getCol b i

/-- The resolved sequence the source stores for each line (oriented back into
the original frame for right and down). -/
def lineResolved (b : Board) (d : Direction) (i : Nat) : Row :=
  match d with
  | .left => (moveLine (b.getD i [])).1
  | .right => ((moveLine (b.getD i []).reverse).1).reverse
  | .up => (moveLine (getCol b i)).1
  | .down => ((moveLine ((getCol b i).reverse)).1).reverse

/-- Total value of the tiles in one line (empty cells count 0). -/
def sumRow (row : Row) : Nat := (row.map fun c => c.getD 0).sum

/-- Total value of all tiles on the board. -/
def boardSum (b : Board) : Nat := (b.map sumRow).sum

/-- The empty-cell scan of source `addRandomTile`: row-major collection of the
coordinates whose cell is null. -/
def emptyCellsOf (board : Board) : List (Nat × Nat) :=
  (List.range GRID_SIZE).flatMap fun row =>
    ((List.range GRID_SIZE).filter fun col => cellAt board row col == none).map
      fun col => (row, col)

/-- Writing `newBoard[row][col] = v` on a fresh row-wise copy of the board. -/
def setCell (b : Board) (row col : Nat) (v : Cell) : Board :=
  b.set row ((b.getD row []).set col v)

/-- Source `randomCell = emptyCells[Math.floor(Math.random() * emptyCells.length)]`
with the draw passed in as `r1`. -/
def spawnIndex (b : Board) (r1 : ℚ) : Nat :=
  Nat.floor (r1 * ((emptyCellsOf b).length : ℚ))

def spawnCellOf (b : Board) (r1 : ℚ) : Nat × Nat :=
  (emptyCellsOf b).getD (spawnIndex b r1) (0, 0)

/-- Source `randomValue = Math.random() < 0.9 ? 2 : 4` with the draw passed in
as `r2`. -/
def spawnValue (r2 : ℚ) : Nat := if r2 < 9 / 10 then 2 else 4

/-- Source `addRandomTile`. -/
def addRandomTile (board : Board) (r1 r2 : ℚ) : Board :=
  if (emptyCellsOf board).length = 0 then board
  else
    setCell board (spawnCellOf board r1).1 (spawnCellOf board r1).2
      (some (spawnValue r2))

/-- Number of non-empty cells in one row. -/
def rowTiles (row : Row) : Nat := (row.filterMap id).length

/-- Number of non-empty cells on the board. -/
def countTiles (b : Board) : Nat := (b.map rowTiles).sum

/-- Source `GameState`, the snapshot unit pushed onto the undo stack. -/
structure GameState where
  board : Board
  score : Nat
deriving DecidableEq

inductive PowerupMode
  | none
  | swap
  | delete
deriving DecidableEq

/-- The React state of the Game2048 component touched by the core game
operations (tutorial and best-score state are presentation concerns). -/
structure SessionState where
  board : Board
  score : Nat
  gameWon : Bool
  gameOver : Bool
  powerupMode : PowerupMode
  selectedTiles : List (Nat × Nat)
  undoStack : List GameState
  undoCount : Int
  swapCount : Int
  deleteCount : Int
deriving DecidableEq

/-- `setUndoStack(prev => [...prev.slice(-4), snapshot])`: keep the last four
snapshots and append the new one. -/
def pushSnapshot (prev : List GameState) (g : GameState) : List GameState :=
  prev.drop (prev.length - 4) ++ [g]

/-- Source `isGameWon`. -/
def isGameWon (board : Board) : Bool :=
  (List.range GRID_SIZE).any fun row =>
    (List.range GRID_SIZE).any fun col =>
      cellAt board row col == some WINNING_NUMBER

/-- Source `isGameOver`: some empty cell, or some equal right- or
bottom-neighbor pair, means the game is not over. -/
def isGameOver (board : Board) : Bool :=
  if (List.range GRID_SIZE).any (fun row =>
      (List.range GRID_SIZE).any fun col => cellAt board row col == none) then
    false
  else if (List.range GRID_SIZE).any (fun row =>
      (List.range GRID_SIZE).any fun col =>
        (decide (col < GRID_SIZE - 1) &&
          (cellAt board row (col + 1) == cellAt board row col)) ||
        (decide (row < GRID_SIZE - 1) &&
          (cellAt board (row + 1) col == cellAt board row col))) then
    false
  else true

/-- Source `processMove`; the two random draws the spawner may consume are
passed explicitly.  The snapshot push happens before the `moved` check, and
the early return on `moved=false` does not remove it. -/
def processMove (s : SessionState) (direction : Direction) (r1 r2 : ℚ) :
    SessionState × Bool :=
  let stack1 := pushSnapshot s.undoStack ⟨s.board, s.score⟩
  let result := moveBoard s.board direction
  let newBoard := result.1
  let moveScore := result.2.1
  let moved := result.2.2
  if !moved then ({ s with undoStack := stack1 }, false)
  else
    let boardWithNewTile := addRandomTile newBoard r1 r2
    let undoCount1 :=
      if UNDO_UNLOCK_THRESHOLD ≤ moveScore ∧ s.undoCount < MAX_UNDO_COUNT then
        min (s.undoCount + 1) MAX_UNDO_COUNT
      else s.undoCount
    let swapCount1 :=
      if SWAP_UNLOCK_THRESHOLD ≤ moveScore ∧ s.swapCount < MAX_SWAP_COUNT then
        min (s.swapCount + 1) MAX_SWAP_COUNT
      else s.swapCount
    let deleteCount1 :=
      if DELETE_UNLOCK_THRESHOLD ≤ moveScore ∧ s.deleteCount < MAX_DELETE_COUNT then
        min (s.deleteCount + 1) MAX_DELETE_COUNT
      else s.deleteCount
    let gameWon1 :=
      if isGameWon boardWithNewTile && !s.gameWon then true else s.gameWon
    let gameOver1 := if isGameOver boardWithNewTile then true else s.gameOver
    ({ s with
        board := boardWithNewTile,
        score := s.score + moveScore,
        undoStack := stack1,
        undoCount := undoCount1,
        swapCount := swapCount1,
        deleteCount := deleteCount1,
        gameWon := gameWon1,
        gameOver := gameOver1 },
     true)

/-- Source `startNewGame`; four random draws for the two spawned tiles. -/
def startNewGame (r1 r2 r3 r4 : ℚ) : SessionState :=
  { board := addRandomTile (addRandomTile initializeBoard r1 r2) r3 r4
    score := 0
    gameWon := false
    gameOver := false
    powerupMode := PowerupMode.none
    selectedTiles := []
    undoStack := []
    undoCount := 2
    swapCount := 1
    deleteCount := 0 }

/-- Source `handleUndo`. -/
def handleUndo (s : SessionState) : SessionState :=
  if 0 < s.undoCount ∧ 0 < s.undoStack.length then
    let lastState := s.undoStack.getD (s.undoStack.length - 1) ⟨[], 0⟩
    { s with
        board := lastState.board,
        score := lastState.score,
        undoStack := s.undoStack.take (s.undoStack.length - 1),
        undoCount := s.undoCount - 1,
        gameWon := false,
        gameOver := false,
        powerupMode := PowerupMode.none,
        selectedTiles := [] }
  else s

/-- JS truthiness of a cell value: null (and a hypothetical 0 tile) is falsy;
real tile values are always ≥ 2. -/
def cellTruthy (c : Cell) : Bool :=
  match c with
  | none => false
  | some v => v != 0

/-- Source `handleTileClick`; the four random draws cover the two spawns the
delete branch performs when it empties the board. -/
def handleTileClick (s : SessionState) (row col : Nat) (r1 r2 r3 r4 : ℚ) :
    SessionState :=
  if s.powerupMode = PowerupMode.none ∨ !cellTruthy (cellAt s.board row col) then
    s
  else match s.powerupMode with
  | PowerupMode.none => s
  | PowerupMode.swap =>
    if s.selectedTiles.length = 0 then
      { s with selectedTiles := [(row, col)] }
    else if s.selectedTiles.length = 1 then
      let first := s.selectedTiles.getD 0 (0, 0)
      if first.1 = row ∧ first.2 = col then
        { s with selectedTiles := [] }
      else if cellTruthy (cellAt s.board row col) then
        { s with
          undoStack := pushSnapshot s.undoStack ⟨s.board, s.score⟩,
          board := s.board.mapIdx fun rIdx r =>
            r.mapIdx fun cIdx cell =>
              if rIdx = first.1 ∧ cIdx = first.2 then cellAt s.board row col
              else if rIdx = row ∧ cIdx = col then
                cellAt s.board first.1 first.2
              else cell,
          swapCount := s.swapCount - 1,
          powerupMode := PowerupMode.none,
          selectedTiles := [] }
      else s
    else s
  | PowerupMode.delete =>
    let targetValue := cellAt s.board row col
    if cellTruthy targetValue ∧ 0 < s.deleteCount then
      let newBoard := s.board.map fun r =>
        r.map fun cell => if cell == targetValue then none else cell
      let hasAnyTiles := newBoard.any fun r => r.any fun cell => cell != none
      let finalBoard :=
        if !hasAnyTiles then addRandomTile (addRandomTile newBoard r1 r2) r3 r4
        else newBoard
      { s with
        undoStack := pushSnapshot s.undoStack ⟨s.board, s.score⟩,
        board := finalBoard,
        deleteCount := s.deleteCount - 1,
        powerupMode := PowerupMode.none,
        selectedTiles := [],
        gameOver := if isGameOver finalBoard then true else s.gameOver }
    else s

/-- A board whose only tile is a 2 at (0,0): moving left changes nothing. -/
def noopMoveState : SessionState :=
  { board := [[some 2, none, none, none],
              [none, none, none, none],
              [none, none, none, none],
              [none, none, none, none]]
    score := 0
    gameWon := false
    gameOver := false
    powerupMode := PowerupMode.none
    selectedTiles := []
    undoStack := []
    undoCount := 2
    swapCount := 1
    deleteCount := 0 }

/-- A state in swap mode with one tile selected but zero swap uses left. -/
def zeroSwapState : SessionState :=
  { board := [[some 2, some 4, none, none],
              [none, none, none, none],
              [none, none, none, none],
              [none, none, none, none]]
    score := 0
    gameWon := false
    gameOver := false
    powerupMode := PowerupMode.swap
    selectedTiles := [(0, 0)]
    undoStack := []
    undoCount := 2
    swapCount := 0
    deleteCount := 0 }

/-- A state where moving left merges the two 2-tiles (gain 4). -/
def demoState : SessionState :=
  { board := [[some 2, some 2, none, none],
              [none, none, none, none],
              [none, none, none, none],
              [none, none, none, none]]
    score := 0
    gameWon := false
    gameOver := false
    powerupMode := PowerupMode.none
    selectedTiles := []
    undoStack := []
    undoCount := 2
    swapCount := 1
    deleteCount := 0 }

/-- Fully packed, merge-incompatible checkerboard. -/
def checkerBoard : Board :=
  [[some 2, some 4, some 2, some 4],
   [some 4, some 2, some 4, some 2],
   [some 2, some 4, some 2, some 4],
   [some 4, some 2, some 4, some 2]]

/-- The checkerboard with a single empty cell at (3,3). -/
def nearFullBoard : Board :=
  [[some 2, some 4, some 2, some 4],
   [some 4, some 2, some 4, some 2],
   [some 2, some 4, some 2, some 4],
   [some 4, some 2, some 4, none]]

lemma moveLineLoop_eq_mergeSpec (f : List Nat) (fuel i : Nat) (acc : List Nat)
    (s : Nat) (hfuel : f.length - i ≤ fuel) :
    moveLineLoop f fuel i acc s =
      (acc ++ (mergeSpec (f.drop i)).1, s + ((mergeSpec (f.drop i)).2).sum) := by
  induction fuel generalizing i acc s with
  | zero =>
    have hdrop : f.drop i = [] := List.drop_eq_nil_of_le (by omega)
    simp [moveLineLoop, hdrop, mergeSpec]
  | succ fuel ih =>
    rw [moveLineLoop]
    split
    · rename_i h
      have hdropj : f.drop i = f[i] :: f.drop (i + 1) :=
        List.drop_eq_getElem_cons h
      have hgetD : f.getD i 0 = f[i] := List.getD_eq_getElem f 0 h
      split
      · rename_i hc
        obtain ⟨hlt, heq⟩ := hc
        have hdropj1 : f.drop (i + 1) = f[i + 1] :: f.drop (i + 2) :=
          List.drop_eq_getElem_cons hlt
        have hgetD1 : f.getD (i + 1) 0 = f[i + 1] := List.getD_eq_getElem f 0 hlt
        have hab : f[i + 1] = f[i] := by rw [← hgetD, ← hgetD1, heq]
        rw [ih (i + 2) _ _ (by omega)]
        rw [hdropj, hdropj1, hab, hgetD]
        simp [mergeSpec, Nat.add_assoc]
      · rename_i hc
        rw [ih (i + 1) _ _ (by omega)]
        cases hrest : f.drop (i + 1) with
        | nil =>
          rw [hdropj, hrest, hgetD]
          simp [mergeSpec]
        | cons b rest =>
          have hlt : i + 1 < f.length := by
            by_contra hge
            rw [List.drop_eq_nil_of_le (by omega)] at hrest
            exact List.noConfusion hrest
          have hgetD1 : f.getD (i + 1) 0 = f[i + 1] := List.getD_eq_getElem f 0 hlt
          have hb : b = f[i + 1] := by
            have := List.drop_eq_getElem_cons hlt
            rw [hrest] at this
            exact (List.cons.injEq _ _ _ _ ▸ this).1
          have hne : f[i] ≠ b := by
            intro hcontra
            exact hc ⟨hlt, by rw [hgetD, hgetD1, ← hb, hcontra]⟩
          rw [hdropj, hrest, hgetD]
          simp [mergeSpec, hne, Nat.add_assoc]
    · rename_i h
      have hdrop : f.drop i = [] := List.drop_eq_nil_of_le (by omega)
      simp [hdrop, mergeSpec]

lemma moveLine_eq_resolveSpec (line : Row) : moveLine line = resolveSpec line := by
  simp only [moveLine, resolveSpec]
  rw [moveLineLoop_eq_mergeSpec _ _ _ _ _ (by omega)]
  simp

/-- C3: the source line resolver agrees, on every input line, with the
resolver described by the spec (pack toward index 0 preserving order, merge
strictly left-to-right with no cell merging twice, pad with empties, score =
sum of newly created merged values); in particular resolving [2,2,2,empty]
yields [4,2,empty,empty] with score 4. -/
theorem moveLine_matches_spec :
    (∀ line : Row, moveLine line = resolveSpec line) ∧
      moveLine [some 2, some 2, some 2, none] =
        ([some 4, some 2, none, none], 4) :=
  ⟨moveLine_eq_resolveSpec, by rw [moveLine_eq_resolveSpec]; rfl⟩

lemma range_four : List.range 4 = [0, 1, 2, 3] := rfl

lemma exists_lt_four_iff (P : Nat → Prop) :
    (∃ i, i < 4 ∧ P i) ↔ P 0 ∨ P 1 ∨ P 2 ∨ P 3 := by
  constructor
  · rintro ⟨i, hi, hp⟩
    interval_cases i <;> tauto
  · rintro (h | h | h | h)
    · exact ⟨0, by omega, h⟩
    · exact ⟨1, by omega, h⟩
    · exact ⟨2, by omega, h⟩
    · exact ⟨3, by omega, h⟩

lemma length_four_destruct {α : Type} (l : List α) (h : l.length = 4) :
    ∃ a b c d, l = [a, b, c, d] := by
  rcases l with _ | ⟨a, l⟩
  · simp at h
  rcases l with _ | ⟨b, l⟩
  · simp at h
  rcases l with _ | ⟨c, l⟩
  · simp at h
  rcases l with _ | ⟨d, l⟩
  · simp at h
  rcases l with _ | ⟨e, l⟩
  · exact ⟨a, b, c, d, rfl⟩
  · simp at h

lemma boardFromCols_getCol (b : Board) (hv : b.valid) :
    boardFromCols [getCol b 0, getCol b 1, getCol b 2, getCol b 3] = b := by
  obtain ⟨hlen, hrows⟩ := hv
  obtain ⟨r0, r1, r2, r3, hb⟩ := length_four_destruct b hlen
  subst hb
  obtain ⟨a0, a1, a2, a3, h0⟩ := length_four_destruct r0 (hrows r0 (by simp))
  obtain ⟨b0, b1, b2, b3, h1⟩ := length_four_destruct r1 (hrows r1 (by simp))
  obtain ⟨c0, c1, c2, c3, h2⟩ := length_four_destruct r2 (hrows r2 (by simp))
  obtain ⟨d0, d1, d2, d3, h3⟩ := length_four_destruct r3 (hrows r3 (by simp))
  subst h0 h1 h2 h3
  rfl

/-- C4: for every valid grid and direction, the move engine's changed flag is
true iff at least one line's resolved sequence differs from its original
sequence, and when no line changes the resulting grid equals the input
grid. -/
theorem moveBoard_changed_iff (b : Board) (d : Direction) (hv : b.valid) :
    ((moveBoard b d).2.2 = true ↔
      ∃ i, i < GRID_SIZE ∧ lineResolved b d i ≠ lineOrig b d i) ∧
    ((moveBoard b d).2.2 = false → (moveBoard b d).1 = b) := by
  have hv' := hv
  obtain ⟨hlen, hrows⟩ := hv'
  obtain ⟨r0, r1, r2, r3, hb⟩ := length_four_destruct b hlen
  subst hb
  cases d with
  | left =>
    constructor
    · rw [show GRID_SIZE = 4 from rfl, exists_lt_four_iff]
      simp [moveBoard, arraysEqual, lineResolved, lineOrig]
    · intro h
      simp [moveBoard, arraysEqual] at h
      obtain ⟨h0, h1, h2, h3⟩ := h
      simp [moveBoard, arraysEqual, h0, h1, h2, h3]
  | right =>
    constructor
    · rw [show GRID_SIZE = 4 from rfl, exists_lt_four_iff]
      simp [moveBoard, arraysEqual, lineResolved, lineOrig]
    · intro h
      simp [moveBoard, arraysEqual] at h
      obtain ⟨h0, h1, h2, h3⟩ := h
      simp [moveBoard, arraysEqual, h0, h1, h2, h3]
  | up =>
    constructor
    · rw [show GRID_SIZE = 4 from rfl, exists_lt_four_iff]
      simp [moveBoard, arraysEqual, lineResolved, lineOrig, GRID_SIZE, range_four]
    · intro h
      simp [moveBoard, arraysEqual, GRID_SIZE, range_four] at h
      obtain ⟨h0, h1, h2, h3⟩ := h
      simp [moveBoard, arraysEqual, GRID_SIZE, range_four, h0, h1, h2, h3]
      exact boardFromCols_getCol _ hv
  | down =>
    constructor
    · rw [show GRID_SIZE = 4 from rfl, exists_lt_four_iff]
      simp [moveBoard, arraysEqual, lineResolved, lineOrig, GRID_SIZE, range_four]
    · intro h
      simp [moveBoard, arraysEqual, GRID_SIZE, range_four] at h
      obtain ⟨h0, h1, h2, h3⟩ := h
      simp [moveBoard, arraysEqual, GRID_SIZE, range_four, h0, h1, h2, h3]
      exact boardFromCols_getCol _ hv

lemma mergeSpec_fst_sum (l : List Nat) : ((mergeSpec l).1).sum = l.sum := by
  have h : ∀ (n : Nat) (l : List Nat), l.length ≤ n →
      ((mergeSpec l).1).sum = l.sum := by
    intro n
    induction n with
    | zero =>
      intro l hl
      rcases l with _ | ⟨a, l⟩
      · rfl
      · simp at hl
    | succ n ih =>
      intro l hl
      rcases l with _ | ⟨a, _ | ⟨b, rest⟩⟩
      · rfl
      · rfl
      · by_cases hab : a = b
        · subst hab
          have hms : mergeSpec (a :: a :: rest) =
              (a * 2 :: (mergeSpec rest).1, a * 2 :: (mergeSpec rest).2) := by
            simp [mergeSpec]
          have := ih rest (by simp at hl; omega)
          rw [hms, List.sum_cons, this, List.sum_cons, List.sum_cons]
          omega
        · have := ih (b :: rest) (by simp at hl ⊢; omega)
          simp only [mergeSpec, if_neg hab, List.sum_cons] at this ⊢
          omega
  exact h l.length l le_rfl

lemma mergeSpec_fst_length_le (l : List Nat) : (mergeSpec l).1.length ≤ l.length := by
  have h : ∀ (n : Nat) (l : List Nat), l.length ≤ n →
      (mergeSpec l).1.length ≤ l.length := by
    intro n
    induction n with
    | zero =>
      intro l hl
      rcases l with _ | ⟨a, l⟩
      · simp [mergeSpec]
      · simp at hl
    | succ n ih =>
      intro l hl
      rcases l with _ | ⟨a, _ | ⟨b, rest⟩⟩
      · simp [mergeSpec]
      · simp [mergeSpec]
      · by_cases hab : a = b
        · subst hab
          have hms : mergeSpec (a :: a :: rest) =
              (a * 2 :: (mergeSpec rest).1, a * 2 :: (mergeSpec rest).2) := by
            simp [mergeSpec]
          have := ih rest (by simp at hl; omega)
          rw [hms]
          simp at this ⊢
          omega
        · have := ih (b :: rest) (by simp at hl ⊢; omega)
          simp only [mergeSpec, if_neg hab, List.length_cons] at this ⊢
          omega
  exact h l.length l le_rfl

lemma sumRow_pad (l : List Nat) (k : Nat) :
    sumRow (l.map some ++ List.replicate k none) = l.sum := by
  have hcomp : ((fun (c : Cell) => c.getD 0) ∘ some) = id := rfl
  simp [sumRow, List.map_append, List.sum_append, List.map_map, hcomp,
    List.map_replicate, List.sum_replicate]

lemma sumRow_eq_filterMap (line : Row) : sumRow line = (line.filterMap id).sum := by
  induction line with
  | nil => rfl
  | cons c rest ih =>
    cases c <;> simp [sumRow, List.filterMap_cons] at ih ⊢ <;> omega

lemma moveLine_sum (line : Row) : sumRow (moveLine line).1 = sumRow line := by
  rw [moveLine_eq_resolveSpec]
  simp only [resolveSpec]
  rw [sumRow_pad, mergeSpec_fst_sum, sumRow_eq_filterMap]

lemma moveLine_length (line : Row) (h : line.length ≤ 4) :
    (moveLine line).1.length = 4 := by
  rw [moveLine_eq_resolveSpec]
  simp only [resolveSpec]
  have h1 : (line.filterMap id).length ≤ line.length := List.length_filterMap_le id line
  have h2 := mergeSpec_fst_length_le (line.filterMap id)
  simp [GRID_SIZE]
  omega

lemma sumRow_reverse (row : Row) : sumRow row.reverse = sumRow row := by
  simp [sumRow, List.map_reverse, List.sum_reverse]

lemma boardSum_fromCols (c0 c1 c2 c3 : Row) (h0 : c0.length = 4)
    (h1 : c1.length = 4) (h2 : c2.length = 4) (h3 : c3.length = 4) :
    boardSum (boardFromCols [c0, c1, c2, c3]) =
      sumRow c0 + sumRow c1 + sumRow c2 + sumRow c3 := by
  obtain ⟨a0, a1, a2, a3, hc0⟩ := length_four_destruct c0 h0
  obtain ⟨b0, b1, b2, b3, hc1⟩ := length_four_destruct c1 h1
  obtain ⟨d0, d1, d2, d3, hc2⟩ := length_four_destruct c2 h2
  obtain ⟨e0, e1, e2, e3, hc3⟩ := length_four_destruct c3 h3
  subst hc0 hc1 hc2 hc3
  simp [boardSum, boardFromCols, sumRow, GRID_SIZE, range_four]
  omega

lemma boardSum_cols (b : Board) (hv : b.valid) :
    sumRow (getCol b 0) + sumRow (getCol b 1) + sumRow (getCol b 2) +
      sumRow (getCol b 3) = boardSum b := by
  obtain ⟨hlen, hrows⟩ := hv
  obtain ⟨r0, r1, r2, r3, hb⟩ := length_four_destruct b hlen
  subst hb
  obtain ⟨a0, a1, a2, a3, h0⟩ := length_four_destruct r0 (hrows r0 (by simp))
  obtain ⟨b0, b1, b2, b3, h1⟩ := length_four_destruct r1 (hrows r1 (by simp))
  obtain ⟨c0, c1, c2, c3, h2⟩ := length_four_destruct r2 (hrows r2 (by simp))
  obtain ⟨d0, d1, d2, d3, h3⟩ := length_four_destruct r3 (hrows r3 (by simp))
  subst h0 h1 h2 h3
  simp [boardSum, getCol, sumRow]
  omega

/-- C10: the line resolver preserves the sum of the tile values in a line
(each merge turns two values v into one 2v), hence a directional move
preserves the total tile sum of a valid board before the spawner runs. -/
theorem moveBoard_preserves_sum :
    (∀ line : Row, sumRow (moveLine line).1 = sumRow line) ∧
      ∀ (b : Board) (d : Direction), b.valid →
        boardSum (moveBoard b d).1 = boardSum b := by
  refine ⟨moveLine_sum, ?_⟩
  intro b d hv
  have hv' := hv
  obtain ⟨hlen, hrows⟩ := hv'
  have hcol : ∀ i, (getCol b i).length = 4 := by
    intro i
    simp [getCol, hlen, GRID_SIZE]
  cases d with
  | left =>
    obtain ⟨r0, r1, r2, r3, hb⟩ := length_four_destruct b hlen
    subst hb
    simp [moveBoard, boardSum, moveLine_sum]
  | right =>
    obtain ⟨r0, r1, r2, r3, hb⟩ := length_four_destruct b hlen
    subst hb
    simp [moveBoard, boardSum, sumRow_reverse, moveLine_sum]
  | up =>
    simp only [moveBoard, GRID_SIZE, range_four, List.map_cons, List.map_nil]
    rw [boardSum_fromCols _ _ _ _ (moveLine_length _ (by rw [hcol 0]))
      (moveLine_length _ (by rw [hcol 1])) (moveLine_length _ (by rw [hcol 2]))
      (moveLine_length _ (by rw [hcol 3]))]
    rw [moveLine_sum, moveLine_sum, moveLine_sum, moveLine_sum]
    exact boardSum_cols b hv
  | down =>
    simp only [moveBoard, GRID_SIZE, range_four, List.map_cons, List.map_nil]
    rw [boardSum_fromCols _ _ _ _
      (by rw [List.length_reverse]; exact moveLine_length _ (by rw [List.length_reverse, hcol 0]))
      (by rw [List.length_reverse]; exact moveLine_length _ (by rw [List.length_reverse, hcol 1]))
      (by rw [List.length_reverse]; exact moveLine_length _ (by rw [List.length_reverse, hcol 2]))
      (by rw [List.length_reverse]; exact moveLine_length _ (by rw [List.length_reverse, hcol 3]))]
    rw [sumRow_reverse, sumRow_reverse, sumRow_reverse, sumRow_reverse]
    rw [moveLine_sum, moveLine_sum, moveLine_sum, moveLine_sum]
    rw [sumRow_reverse, sumRow_reverse, sumRow_reverse, sumRow_reverse]
    exact boardSum_cols b hv

lemma getD_set_ne {α : Type} (l : List α) (m n : Nat) (a d : α) (h : m ≠ n) :
    (l.set m a).getD n d = l.getD n d := by
  induction l generalizing m n with
  | nil => simp
  | cons x xs ih =>
    cases m with
    | zero =>
      cases n with
      | zero => exact absurd rfl h
      | succ n => simp
    | succ m =>
      cases n with
      | zero => simp
      | succ n => simpa using ih m n (by omega)

lemma getD_set_self {α : Type} (l : List α) (m : Nat) (a d : α)
    (h : m < l.length) : (l.set m a).getD m d = a := by
  induction l generalizing m with
  | nil => simp at h
  | cons x xs ih =>
    cases m with
    | zero => simp
    | succ m => simpa using ih m (by simpa using h)

lemma mem_emptyCellsOf (b : Board) (rc : Nat × Nat) :
    rc ∈ emptyCellsOf b ↔
      rc.1 < GRID_SIZE ∧ rc.2 < GRID_SIZE ∧ cellAt b rc.1 rc.2 = none := by
  obtain ⟨r, c⟩ := rc
  simp only [emptyCellsOf, List.mem_flatMap, List.mem_map, List.mem_filter,
    List.mem_range, beq_iff_eq]
  constructor
  · rintro ⟨row, hrow, col, ⟨hcol, hcell⟩, heq⟩
    obtain ⟨h1, h2⟩ := Prod.mk.injEq .. ▸ heq
    subst h1
    subst h2
    exact ⟨hrow, hcol, hcell⟩
  · rintro ⟨hr, hc, hcell⟩
    exact ⟨r, hr, c, ⟨hc, hcell⟩, rfl⟩

lemma rowTiles_set (row : Row) (c : Nat) (v : Nat) (hc : c < row.length)
    (he : row.getD c none = none) :
    rowTiles (row.set c (some v)) = rowTiles row + 1 := by
  induction row generalizing c with
  | nil => simp at hc
  | cons x xs ih =>
    cases c with
    | zero =>
      have hx : x = none := by simpa using he
      subst hx
      simp [rowTiles, List.filterMap_cons]
    | succ c =>
      have hc' : c < xs.length := by simpa using hc
      have he' : xs.getD c none = none := by simpa using he
      cases x with
      | none =>
        simpa [rowTiles, List.filterMap_cons] using ih c hc' he'
      | some y =>
        have := ih c hc' he'
        simp [rowTiles, List.filterMap_cons] at this ⊢
        omega

lemma countTiles_setCell (b : Board) (r c : Nat) (v : Nat) (hr : r < b.length)
    (hc : c < (b.getD r []).length) (he : cellAt b r c = none) :
    countTiles (setCell b r c (some v)) = countTiles b + 1 := by
  induction b generalizing r with
  | nil => simp at hr
  | cons row rest ih =>
    cases r with
    | zero =>
      have he' : row.getD c none = none := by simpa [cellAt] using he
      have hc' : c < row.length := by simpa using hc
      simp only [setCell, List.getD_cons_zero, List.set_cons_zero,
        countTiles, List.map_cons, List.sum_cons]
      rw [rowTiles_set row c v hc' he']
      omega
    | succ r =>
      have hr' : r < rest.length := by simpa using hr
      have hc' : c < (rest.getD r []).length := by simpa using hc
      have he' : cellAt rest r c = none := by simpa [cellAt] using he
      have := ih r hr' hc' he'
      simp only [setCell, List.getD_cons_succ, List.set_cons_succ,
        countTiles, List.map_cons, List.sum_cons] at this ⊢
      omega

lemma cellAt_setCell_ne (b : Board) (r c : Nat) (v : Cell) (r' c' : Nat)
    (hr : r < b.length) (hne : ¬(r' = r ∧ c' = c)) :
    cellAt (setCell b r c v) r' c' = cellAt b r' c' := by
  by_cases hrr : r' = r
  · subst hrr
    have hcc : c ≠ c' := fun h => hne ⟨rfl, h.symm⟩
    simp only [cellAt, setCell]
    rw [getD_set_self _ _ _ _ hr, getD_set_ne _ _ _ _ _ hcc]
  · simp only [cellAt, setCell]
    rw [getD_set_ne _ _ _ _ _ (fun h => hrr h.symm)]

/-- C5: on a valid grid, the spawner returns the grid unchanged when no cell
is empty; otherwise it writes exactly one previously empty cell — the one at
index floor(r1 * number of empty cells) of the row-major empty-cell list,
which is a uniform choice as r1 ranges uniformly over [0,1) — with value 2
precisely when the second draw is below 9/10 (and 4 otherwise), leaving every
other cell unchanged and increasing the tile count by exactly one. -/
theorem addRandomTile_spec (b : Board) (r1 r2 : ℚ) (hv : b.valid)
    (h0 : 0 ≤ r1) (h1 : r1 < 1) :
    (emptyCellsOf b = [] → addRandomTile b r1 r2 = b) ∧
    (emptyCellsOf b ≠ [] →
      spawnIndex b r1 < (emptyCellsOf b).length ∧
      spawnCellOf b r1 ∈ emptyCellsOf b ∧
      cellAt b (spawnCellOf b r1).1 (spawnCellOf b r1).2 = none ∧
      (spawnValue r2 = 2 ∨ spawnValue r2 = 4) ∧
      (spawnValue r2 = 2 ↔ r2 < 9 / 10) ∧
      addRandomTile b r1 r2 =
        setCell b (spawnCellOf b r1).1 (spawnCellOf b r1).2 (some (spawnValue r2)) ∧
      countTiles (addRandomTile b r1 r2) = countTiles b + 1 ∧
      ∀ r c : Nat, ¬(r = (spawnCellOf b r1).1 ∧ c = (spawnCellOf b r1).2) →
        cellAt (addRandomTile b r1 r2) r c = cellAt b r c) := by
  constructor
  · intro h
    simp [addRandomTile, h]
  · intro hne
    have hlen : (emptyCellsOf b).length ≠ 0 := fun h => hne (List.length_eq_zero.1 h)
    have hlenpos : (0 : ℚ) < ((emptyCellsOf b).length : ℚ) := by
      exact_mod_cast Nat.pos_of_ne_zero hlen
    have hidx : spawnIndex b r1 < (emptyCellsOf b).length := by
      have hnn : 0 ≤ r1 * ((emptyCellsOf b).length : ℚ) := mul_nonneg h0 (le_of_lt hlenpos)
      apply (Nat.floor_lt hnn).2
      calc r1 * ((emptyCellsOf b).length : ℚ)
          < 1 * ((emptyCellsOf b).length : ℚ) := by
            exact mul_lt_mul_of_pos_right h1 hlenpos
        _ = ((emptyCellsOf b).length : ℚ) := one_mul _
    have hget : spawnCellOf b r1 = (emptyCellsOf b)[spawnIndex b r1] :=
      List.getD_eq_getElem _ _ hidx
    have hmem : spawnCellOf b r1 ∈ emptyCellsOf b := by
      rw [hget]
      exact List.getElem_mem hidx
    obtain ⟨hr4, hc4, hempty⟩ := (mem_emptyCellsOf b _).1 hmem
    have hval : spawnValue r2 = 2 ∨ spawnValue r2 = 4 := by
      unfold spawnValue
      split
      · exact Or.inl rfl
      · exact Or.inr rfl
    have hval2 : spawnValue r2 = 2 ↔ r2 < 9 / 10 := by
      by_cases h : r2 < 9 / 10 <;> simp [spawnValue, h]
    have hdef : addRandomTile b r1 r2 =
        setCell b (spawnCellOf b r1).1 (spawnCellOf b r1).2 (some (spawnValue r2)) := by
      simp [addRandomTile, hlen]
    have hrlen : r1 * 0 ≤ r1 * ((emptyCellsOf b).length : ℚ) := by
      exact mul_le_mul_of_nonneg_left (le_of_lt hlenpos) h0
    have hrb : (spawnCellOf b r1).1 < b.length := by
      rw [hv.1]
      exact hr4
    have hcb : (spawnCellOf b r1).2 < (b.getD (spawnCellOf b r1).1 []).length := by
      have hrow : b.getD (spawnCellOf b r1).1 [] ∈ b := by
        rw [List.getD_eq_getElem _ _ hrb]
        exact List.getElem_mem hrb
      rw [hv.2 _ hrow]
      exact hc4
    refine ⟨hidx, hmem, hempty, hval, hval2, hdef, ?_, ?_⟩
    · rw [hdef]
      exact countTiles_setCell b _ _ _ hrb hcb hempty
    · intro r c hne'
      rw [hdef]
      exact cellAt_setCell_ne b _ _ _ r c hrb hne'

lemma pushSnapshot_length_le (st : List GameState) (g : GameState) :
    (pushSnapshot st g).length ≤ 5 := by
  simp [pushSnapshot]
  omega

lemma pushSnapshot_full (st : List GameState) (g : GameState)
    (h : st.length = 5) : pushSnapshot st g = st.drop 1 ++ [g] := by
  simp [pushSnapshot, h]

lemma processMove_stack (s : SessionState) (d : Direction) (r1 r2 : ℚ) :
    (processMove s d r1 r2).1.undoStack =
      pushSnapshot s.undoStack ⟨s.board, s.score⟩ := by
  simp only [processMove]
  split <;> rfl

lemma processMove_moved (s : SessionState) (d : Direction) (r1 r2 : ℚ)
    (h : (processMove s d r1 r2).2 = true) :
    (moveBoard s.board d).2.2 = true := by
  by_contra hm
  rw [Bool.not_eq_true] at hm
  simp [processMove, hm] at h

lemma processMove_counts (s : SessionState) (d : Direction) (r1 r2 : ℚ)
    (hm : (moveBoard s.board d).2.2 = true) :
    (processMove s d r1 r2).1.undoCount =
      (if UNDO_UNLOCK_THRESHOLD ≤ (moveBoard s.board d).2.1 ∧
          s.undoCount < MAX_UNDO_COUNT then
        min (s.undoCount + 1) MAX_UNDO_COUNT
      else s.undoCount) ∧
    (processMove s d r1 r2).1.swapCount =
      (if SWAP_UNLOCK_THRESHOLD ≤ (moveBoard s.board d).2.1 ∧
          s.swapCount < MAX_SWAP_COUNT then
        min (s.swapCount + 1) MAX_SWAP_COUNT
      else s.swapCount) ∧
    (processMove s d r1 r2).1.deleteCount =
      (if DELETE_UNLOCK_THRESHOLD ≤ (moveBoard s.board d).2.1 ∧
          s.deleteCount < MAX_DELETE_COUNT then
        min (s.deleteCount + 1) MAX_DELETE_COUNT
      else s.deleteCount) := by
  simp [processMove, hm]

/-- C1: a rejected move (changed=false) leaves grid and score untouched but,
contrary to the spec, does not pop the snapshot pushed at the start of the
turn: from an empty undo history, requesting a no-op left move leaves a
dangling snapshot of the current state on the history. -/
theorem processMove_noop_keeps_dangling_snapshot :
    (processMove noopMoveState Direction.left 0 0).2 = false ∧
    (processMove noopMoveState Direction.left 0 0).1.board =
      noopMoveState.board ∧
    (processMove noopMoveState Direction.left 0 0).1.score =
      noopMoveState.score ∧
    noopMoveState.undoStack = [] ∧
    (processMove noopMoveState Direction.left 0 0).1.undoStack =
      [⟨noopMoveState.board, noopMoveState.score⟩] := by
  refine ⟨by decide, by decide, by decide, by decide, by decide⟩

/-- C2: the delete branch guards on remaining uses, but the swap branch does
not: completing a swap while swapRemaining = 0 performs the swap and drives
the counter to -1, violating the claimed zero-remaining no-op and the
nonnegativity invariant. -/
theorem handleTileClick_swap_ignores_zero_budget :
    zeroSwapState.swapCount = 0 ∧
    (handleTileClick zeroSwapState 0 1 0 0 0 0).swapCount = -1 ∧
    (handleTileClick zeroSwapState 0 1 0 0 0 0).board =
      [[some 4, some 2, none, none],
       [none, none, none, none],
       [none, none, none, none],
       [none, none, none, none]] ∧
    handleTileClick zeroSwapState 0 1 0 0 0 0 ≠ zeroSwapState := by
  refine ⟨by decide, by decide, by decide, by decide⟩

/-- C6: after a successful move, each powerup counter is updated from the
single move's score gain (not the cumulative score): gains of at least
128/256/512 increment the undo/swap/delete counters by one, capped at their
per-kind maxima 3/2/1, independently; a gain below 128 leaves the undo
counter unchanged; and the updated counters do not depend on the cumulative
score. -/
theorem processMove_unlocks_by_move_gain (s : SessionState) (d : Direction)
    (r1 r2 : ℚ) (h : (processMove s d r1 r2).2 = true) :
    ((processMove s d r1 r2).1.undoCount =
      if UNDO_UNLOCK_THRESHOLD ≤ (moveBoard s.board d).2.1 ∧
          s.undoCount < MAX_UNDO_COUNT then
        s.undoCount + 1
      else s.undoCount) ∧
    ((processMove s d r1 r2).1.swapCount =
      if SWAP_UNLOCK_THRESHOLD ≤ (moveBoard s.board d).2.1 ∧
          s.swapCount < MAX_SWAP_COUNT then
        s.swapCount + 1
      else s.swapCount) ∧
    ((processMove s d r1 r2).1.deleteCount =
      if DELETE_UNLOCK_THRESHOLD ≤ (moveBoard s.board d).2.1 ∧
          s.deleteCount < MAX_DELETE_COUNT then
        s.deleteCount + 1
      else s.deleteCount) ∧
    ((moveBoard s.board d).2.1 < UNDO_UNLOCK_THRESHOLD →
      (processMove s d r1 r2).1.undoCount = s.undoCount) ∧
    ∀ n : Nat,
      (processMove { s with score := n } d r1 r2).1.undoCount =
          (processMove s d r1 r2).1.undoCount ∧
      (processMove { s with score := n } d r1 r2).1.swapCount =
          (processMove s d r1 r2).1.swapCount ∧
      (processMove { s with score := n } d r1 r2).1.deleteCount =
          (processMove s d r1 r2).1.deleteCount := by
  have hm := processMove_moved s d r1 r2 h
  obtain ⟨hu, hs, hd⟩ := processMove_counts s d r1 r2 hm
  have hmin : ∀ u m : Int, u < m → min (u + 1) m = u + 1 := by
    intro u m hum
    exact min_eq_left (by omega)
  have hu' : (processMove s d r1 r2).1.undoCount =
      if UNDO_UNLOCK_THRESHOLD ≤ (moveBoard s.board d).2.1 ∧
          s.undoCount < MAX_UNDO_COUNT then
        s.undoCount + 1
      else s.undoCount := by
    rw [hu]
    split
    · rename_i hcond
      exact hmin _ _ hcond.2
    · rfl
  have hs' : (processMove s d r1 r2).1.swapCount =
      if SWAP_UNLOCK_THRESHOLD ≤ (moveBoard s.board d).2.1 ∧
          s.swapCount < MAX_SWAP_COUNT then
        s.swapCount + 1
      else s.swapCount := by
    rw [hs]
    split
    · rename_i hcond
      exact hmin _ _ hcond.2
    · rfl
  have hd' : (processMove s d r1 r2).1.deleteCount =
      if DELETE_UNLOCK_THRESHOLD ≤ (moveBoard s.board d).2.1 ∧
          s.deleteCount < MAX_DELETE_COUNT then
        s.deleteCount + 1
      else s.deleteCount := by
    rw [hd]
    split
    · rename_i hcond
      exact hmin _ _ hcond.2
    · rfl
  refine ⟨hu', hs', hd', ?_, ?_⟩
  · intro hlt
    rw [hu', if_neg]
    rintro ⟨hc, _⟩
    omega
  · intro n
    have hm' : (moveBoard ({ s with score := n } : SessionState).board d).2.2 =
        true := hm
    obtain ⟨hun, hsn, hdn⟩ := processMove_counts { s with score := n } d r1 r2 hm'
    rw [hun, hu, hsn, hs, hdn, hd]
    exact ⟨rfl, rfl, rfl⟩

lemma pushSnapshot_getLast (st : List GameState) (g : GameState) :
    (pushSnapshot st g).getD ((pushSnapshot st g).length - 1) ⟨[], 0⟩ = g := by
  unfold pushSnapshot
  rw [List.length_append]
  simp only [List.length_cons, List.length_nil, Nat.zero_add, Nat.add_sub_cancel]
  rw [List.getD_eq_getElem _ _ (by simp)]
  exact List.getElem_concat_length _ _ _ rfl (by simp)

lemma handleUndo_eq (t : SessionState) (h1 : 0 < t.undoCount)
    (h2 : 0 < t.undoStack.length) :
    handleUndo t =
      { t with
        board := (t.undoStack.getD (t.undoStack.length - 1) ⟨[], 0⟩).board
        score := (t.undoStack.getD (t.undoStack.length - 1) ⟨[], 0⟩).score
        undoStack := t.undoStack.take (t.undoStack.length - 1)
        undoCount := t.undoCount - 1
        gameWon := false
        gameOver := false
        powerupMode := PowerupMode.none
        selectedTiles := [] } := by
  unfold handleUndo
  rw [if_pos ⟨h1, h2⟩]

/-- C7: from any state, a successful move followed by an undo (possible
whenever the post-move undo budget is positive) restores exactly the grid and
cumulative score held before the move and decrements the undo counter by one;
an undo with zero remaining uses or an empty history is a no-op. -/
theorem move_undo_roundtrip (s : SessionState) (d : Direction) (r1 r2 : ℚ)
    (hmoved : (processMove s d r1 r2).2 = true)
    (hbudget : 0 < (processMove s d r1 r2).1.undoCount) :
    (handleUndo (processMove s d r1 r2).1).board = s.board ∧
    (handleUndo (processMove s d r1 r2).1).score = s.score ∧
    (handleUndo (processMove s d r1 r2).1).undoCount =
      (processMove s d r1 r2).1.undoCount - 1 ∧
    ∀ t : SessionState, t.undoCount = 0 ∨ t.undoStack = [] →
      handleUndo t = t := by
  have hstack := processMove_stack s d r1 r2
  have hlen : 0 < (processMove s d r1 r2).1.undoStack.length := by
    rw [hstack]
    simp [pushSnapshot]
  have hlast : (processMove s d r1 r2).1.undoStack.getD
      ((processMove s d r1 r2).1.undoStack.length - 1) ⟨[], 0⟩ =
      ⟨s.board, s.score⟩ := by
    rw [hstack]
    exact pushSnapshot_getLast _ _
  rw [handleUndo_eq _ hbudget hlen]
  refine ⟨by rw [hlast], by rw [hlast], by simp, ?_⟩
  intro t ht
  unfold handleUndo
  rw [if_neg]
  rintro ⟨hc1, hc2⟩
  rcases ht with hz | hz
  · omega
  · rw [hz] at hc2
    simp at hc2

lemma handleTileClick_stack (s : SessionState) (row col : Nat)
    (r1 r2 r3 r4 : ℚ) :
    (handleTileClick s row col r1 r2 r3 r4).undoStack = s.undoStack ∨
    (handleTileClick s row col r1 r2 r3 r4).undoStack =
      pushSnapshot s.undoStack ⟨s.board, s.score⟩ := by
  simp only [handleTileClick]
  split
  · exact Or.inl rfl
  split
  · exact Or.inl rfl
  · split
    · exact Or.inl rfl
    · split
      · split
        · exact Or.inl rfl
        · split
          · exact Or.inr rfl
          · exact Or.inl rfl
      · exact Or.inl rfl
  · split
    · exact Or.inr rfl
    · exact Or.inl rfl

/-- C8: the undo history never exceeds 5 snapshots across moves, tile clicks
(swap and delete), undo, and a new session, and a push onto a full history of
5 drops exactly the oldest snapshot, keeping the 4 most recent in order
followed by the new one. -/
theorem undo_history_bounded :
    (∀ (st : List GameState) (g : GameState), (pushSnapshot st g).length ≤ 5) ∧
    (∀ (st : List GameState) (g : GameState), st.length = 5 →
      pushSnapshot st g = st.drop 1 ++ [g]) ∧
    (∀ (s : SessionState) (d : Direction) (r1 r2 : ℚ),
      (processMove s d r1 r2).1.undoStack.length ≤ 5) ∧
    (∀ (s : SessionState) (row col : Nat) (r1 r2 r3 r4 : ℚ),
      s.undoStack.length ≤ 5 →
      (handleTileClick s row col r1 r2 r3 r4).undoStack.length ≤ 5) ∧
    (∀ s : SessionState, s.undoStack.length ≤ 5 →
      (handleUndo s).undoStack.length ≤ 5) ∧
    (∀ r1 r2 r3 r4 : ℚ, (startNewGame r1 r2 r3 r4).undoStack.length = 0) := by
  refine ⟨pushSnapshot_length_le, pushSnapshot_full, ?_, ?_, ?_, fun _ _ _ _ => rfl⟩
  · intro s d r1 r2
    rw [processMove_stack]
    exact pushSnapshot_length_le _ _
  · intro s row col r1 r2 r3 r4 h
    rcases handleTileClick_stack s row col r1 r2 r3 r4 with hs | hs
    · rw [hs]
      exact h
    · rw [hs]
      exact pushSnapshot_length_le _ _
  · intro s h
    unfold handleUndo
    split
    · simp only [List.length_take]
      omega
    · exact h

/-- C9: in any powerup mode and with any selection, a tile click on an empty
cell is a complete no-op: the session state is returned unchanged. -/
theorem handleTileClick_empty_cell_noop (s : SessionState) (row col : Nat)
    (r1 r2 r3 r4 : ℚ) (h : cellAt s.board row col = none) :
    handleTileClick s row col r1 r2 r3 r4 = s := by
  unfold handleTileClick
  rw [if_pos]
  right
  rw [h]
  rfl

theorem moveBoard_changed_iff_witness :
    ((moveBoard checkerBoard Direction.left).2.2 = true ↔
      ∃ i, i < GRID_SIZE ∧
        lineResolved checkerBoard Direction.left i ≠
          lineOrig checkerBoard Direction.left i) ∧
    ((moveBoard checkerBoard Direction.left).2.2 = false →
      (moveBoard checkerBoard Direction.left).1 = checkerBoard) :=
  moveBoard_changed_iff checkerBoard Direction.left (by decide)

theorem addRandomTile_spec_witness :
    (emptyCellsOf nearFullBoard = [] →
      addRandomTile nearFullBoard 0 0 = nearFullBoard) ∧
    (emptyCellsOf nearFullBoard ≠ [] →
      spawnIndex nearFullBoard 0 < (emptyCellsOf nearFullBoard).length ∧
      spawnCellOf nearFullBoard 0 ∈ emptyCellsOf nearFullBoard ∧
      cellAt nearFullBoard (spawnCellOf nearFullBoard 0).1
        (spawnCellOf nearFullBoard 0).2 = none ∧
      (spawnValue 0 = 2 ∨ spawnValue 0 = 4) ∧
      (spawnValue 0 = 2 ↔ (0 : ℚ) < 9 / 10) ∧
      addRandomTile nearFullBoard 0 0 =
        setCell nearFullBoard (spawnCellOf nearFullBoard 0).1
          (spawnCellOf nearFullBoard 0).2 (some (spawnValue 0)) ∧
      countTiles (addRandomTile nearFullBoard 0 0) =
        countTiles nearFullBoard + 1 ∧
      ∀ r c : Nat, ¬(r = (spawnCellOf nearFullBoard 0).1 ∧
          c = (spawnCellOf nearFullBoard 0).2) →
        cellAt (addRandomTile nearFullBoard 0 0) r c =
          cellAt nearFullBoard r c) :=
  addRandomTile_spec nearFullBoard 0 0 (by decide) (le_refl 0) (by norm_num)

theorem processMove_unlocks_by_move_gain_witness :
    ((processMove demoState Direction.left 0 0).1.undoCount =
      if UNDO_UNLOCK_THRESHOLD ≤ (moveBoard demoState.board Direction.left).2.1 ∧
          demoState.undoCount < MAX_UNDO_COUNT then
        demoState.undoCount + 1
      else demoState.undoCount) ∧
    ((processMove demoState Direction.left 0 0).1.swapCount =
      if SWAP_UNLOCK_THRESHOLD ≤ (moveBoard demoState.board Direction.left).2.1 ∧
          demoState.swapCount < MAX_SWAP_COUNT then
        demoState.swapCount + 1
      else demoState.swapCount) ∧
    ((processMove demoState Direction.left 0 0).1.deleteCount =
      if DELETE_UNLOCK_THRESHOLD ≤ (moveBoard demoState.board Direction.left).2.1 ∧
          demoState.deleteCount < MAX_DELETE_COUNT then
        demoState.deleteCount + 1
      else demoState.deleteCount) ∧
    ((moveBoard demoState.board Direction.left).2.1 < UNDO_UNLOCK_THRESHOLD →
      (processMove demoState Direction.left 0 0).1.undoCount =
        demoState.undoCount) ∧
    ∀ n : Nat,
      (processMove { demoState with score := n } Direction.left 0 0).1.undoCount =
          (processMove demoState Direction.left 0 0).1.undoCount ∧
      (processMove { demoState with score := n } Direction.left 0 0).1.swapCount =
          (processMove demoState Direction.left 0 0).1.swapCount ∧
      (processMove { demoState with score := n } Direction.left 0 0).1.deleteCount =
          (processMove demoState Direction.left 0 0).1.deleteCount :=
  processMove_unlocks_by_move_gain demoState Direction.left 0 0 (by decide)

theorem move_undo_roundtrip_witness :
    (handleUndo (processMove demoState Direction.left 0 0).1).board =
      demoState.board ∧
    (handleUndo (processMove demoState Direction.left 0 0).1).score =
      demoState.score ∧
    (handleUndo (processMove demoState Direction.left 0 0).1).undoCount =
      (processMove demoState Direction.left 0 0).1.undoCount - 1 ∧
    ∀ t : SessionState, t.undoCount = 0 ∨ t.undoStack = [] →
      handleUndo t = t :=
  move_undo_roundtrip demoState Direction.left 0 0 (by decide) (by decide)

theorem undo_history_bounded_witness :
    (processMove demoState Direction.left 0 0).1.undoStack.length ≤ 5 ∧
    (handleTileClick zeroSwapState 0 1 0 0 0 0).undoStack.length ≤ 5 ∧
    pushSnapshot [⟨[], 0⟩, ⟨[], 1⟩, ⟨[], 2⟩, ⟨[], 3⟩, ⟨[], 4⟩] ⟨[], 5⟩ =
      [⟨[], 1⟩, ⟨[], 2⟩, ⟨[], 3⟩, ⟨[], 4⟩, ⟨[], 5⟩] := by
  refine ⟨undo_history_bounded.2.2.1 demoState Direction.left 0 0,
    undo_history_bounded.2.2.2.1 zeroSwapState 0 1 0 0 0 0 (by decide), ?_⟩
  rw [undo_history_bounded.2.1 _ _ (by decide)]
  decide

theorem handleTileClick_empty_cell_noop_witness :
    handleTileClick zeroSwapState 1 1 0 0 0 0 = zeroSwapState :=
  handleTileClick_empty_cell_noop zeroSwapState 1 1 0 0 0 0 (by decide)

theorem moveBoard_preserves_sum_witness :
    boardSum (moveBoard nearFullBoard Direction.up).1 = boardSum nearFullBoard :=
  moveBoard_preserves_sum.2 nearFullBoard Direction.up (by decide)
